import Mathlib

/-!
Verification of the libre-vtt core against its natural-language specification.

The definitions below are a shallow embedding of the repository's JavaScript:

* `BoardState`, `Token`, `Layer`, and the `Event` vocabulary together with
  `handleEvent` embed the pure state/reducer pair of
  src/board-interactive.js (classes BoardState and EventHandler).
  JavaScript in-place mutation of the object graph is rendered as functional
  update of the first matching element (JS Array.prototype.find returns the
  first element with a matching id, and the handlers mutate that object);
  the helper `updateFirst` captures exactly that.
* `claimChanges` and `disconnectChanges` embed the host-side batch
  construction of src/communication.js (the claim-token-request handler in
  CommunicationManager._handleMessage, and the onconnectionstatechange
  disconnect handler in _setupConnectionHandlers).
* `volumeRatio`, `finalVolume` and `audioVolume` embed the proximity audio
  computation updateDistanceBasedAudio of the main module.  JS numbers are
  embedded as rationals.
* `Directory` with `dirGet`/`dirSet`/`dirDelete` embeds the JS Map holding
  session.peers (insertion order, overwriting set, key-based delete), and
  `processAnswer` embeds CommunicationManager.processAnswer.
* `WebRTCManager.send` embeds WebRTCManager.send of the WebRTCManager class
  (reproduced in full in src/README.md).

Machine integers do not occur (JS numbers are doubles; all the code under
verification only stores, compares and does field arithmetic on them), and
every definition is executable.
-/

namespace LibreVTT

/-- Background of a layer: src/board-interactive.js stores
url/width/height/scale/x/y on layer.background. -/
structure Background where
  url : String
  width : ℚ
  height : ℚ
  scale : ℚ
  x : ℚ
  y : ℚ
  deriving DecidableEq, Repr

/-- A token as used by BoardState/EventHandler: id, position, color, owning
peer (peerId, null = unclaimed), optional name and size. -/
structure Token where
  id : String
  x : ℚ
  y : ℚ
  color : String
  peerId : Option String
  name : Option String
  size : Option String
  deriving DecidableEq, Repr

/-- A layer of the document: id, name, visibility flag, optional background,
ordered token list. -/
structure Layer where
  id : String
  name : String
  visible : Bool
  background : Option Background
  tokens : List Token
  deriving DecidableEq, Repr

/-- An ephemeral ping (boardState.pings entries). -/
structure Ping where
  x : ℚ
  y : ℚ
  startTime : Nat
  durationMillis : Nat
  deriving DecidableEq, Repr

/-- The document: class BoardState of src/board-interactive.js
(constructor: layers = [], pings = []). -/
structure BoardState where
  layers : List Layer
  pings : List Ping
  deriving DecidableEq, Repr

/-- The empty document produced by new BoardState(). -/
def emptyBoard : BoardState := { layers := [], pings := [] }

/-- BoardState.findLayer: first layer whose id matches (Array.find). -/
def BoardState.findLayer (s : BoardState) (layerId : String) : Option Layer :=
  s.layers.find? (fun l => l.id == layerId)

/-- BoardState.findToken: find the layer, then the first token whose id
matches inside that layer; undefined when the layer is missing. -/
def BoardState.findToken (s : BoardState) (layerId tokenId : String) : Option Token :=
  match s.findLayer layerId with
  | some layer => layer.tokens.find? (fun t => t.id == tokenId)
  | none => none

/-- Functional rendering of "find the first element satisfying p and mutate
it in place": every other element is untouched. -/
def updateFirst (p : α → Bool) (f : α → α) : List α → List α
  | [] => []
  | x :: xs => if p x then f x :: xs else x :: updateFirst p f xs

/-- The per-layer body of BoardState.addToken: push the token unless a token
with the same id is already present. -/
def addTokenToLayer (tokenData : Token) (l : Layer) : Layer :=
  if l.tokens.any (fun t => t.id == tokenData.id) then l
  else { l with tokens := l.tokens ++ [tokenData] }

/-- BoardState.addToken: if the (first) layer with this id exists and none of
its tokens already has the new token's id, push the token. -/
def BoardState.addToken (s : BoardState) (layerId : String) (tokenData : Token) : BoardState :=
  { s with layers := (updateFirst (fun l => l.id == layerId) (addTokenToLayer tokenData) s.layers) }

/-- BoardState.removeToken: if the layer exists, filter out every token with
the given id. -/
def BoardState.removeToken (s : BoardState) (layerId tokenId : String) : BoardState :=
  { s with layers := (updateFirst (fun l => l.id == layerId)
      (fun l => { l with tokens := l.tokens.filter (fun t => !(t.id == tokenId)) }) s.layers) }

/-- The common "findToken then mutate the found token" pattern of the
EventHandler cases (token-moved, token-property-changed,
token-ownership-changed). -/
def BoardState.modifyToken (s : BoardState) (layerId tokenId : String) (f : Token → Token) : BoardState :=
  { s with layers := (updateFirst (fun l => l.id == layerId)
      (fun l => { l with tokens := updateFirst (fun t => t.id == tokenId) f l.tokens }) s.layers) }

/-- The common "findLayer then mutate the found layer" pattern of the
layer-* EventHandler cases. -/
def BoardState.modifyLayer (s : BoardState) (layerId : String) (f : Layer → Layer) : BoardState :=
  { s with layers := updateFirst (fun l => l.id == layerId) f s.layers }

/-- One entry of a token-ownership-changed batch:
the object with fields layerId, tokenId and newOwner. -/
structure OwnershipChange where
  layerId : String
  tokenId : String
  newOwner : Option String
  deriving DecidableEq, Repr

/-- A layerId/tokenId reference, as listed in
player-disconnected-update.changes.unclaimedTokens. -/
structure TokenRef where
  layerId : String
  tokenId : String
  deriving DecidableEq, Repr

/-- The changes object of a player-disconnected-update event. -/
structure DisconnectChanges where
  removedTokenId : String
  unclaimedTokens : List TokenRef
  deriving DecidableEq, Repr

/-- The properties bag of a token-property-changed event, applied with
Object.assign: each present field overwrites the token's field. -/
structure TokenProps where
  x : Option ℚ
  y : Option ℚ
  color : Option String
  peerId : Option (Option String)
  name : Option (Option String)
  size : Option (Option String)
  deriving DecidableEq, Repr

/-- Object.assign(token, properties). -/
def Token.applyProps (t : Token) (p : TokenProps) : Token :=
  { t with
    x := p.x.getD t.x
    y := p.y.getD t.y
    color := p.color.getD t.color
    peerId := p.peerId.getD t.peerId
    name := p.name.getD t.name
    size := p.size.getD t.size }

/-- The event vocabulary dispatched by EventHandler.handleEvent. -/
inductive Event where
  | gameStateUpdate (layers : List Layer)
  | tokenMoved (layerId tokenId : String) (x y : ℚ)
  | tokenDeleted (layerId tokenId : String)
  | tokenAdded (layerId : String) (tokenData : Token)
  | tokenPropertyChanged (layerId tokenId : String) (properties : Option TokenProps)
  | tokenOwnershipChanged (changes : List OwnershipChange)
  | playerDisconnectedUpdate (changes : DisconnectChanges)
  | ping (x y : ℚ) (durationMillis : Option Nat)
  | layerAdded (layer : Layer)
  | layerDeleted (layerId : String)
  | layerVisibilityChanged (layerId : String) (visible : Bool)
  | layerRenamed (layerId : String) (name : String)
  | layerBackgroundChanged (layerId : String) (background : Background)
  | layerBackgroundCleared (layerId : String)
  | layerBackgroundScaled (layerId : String) (scale : ℚ)
  | layerBackgroundMoved (layerId : String) (x y : ℚ)
  deriving DecidableEq, Repr

/-- The token-ownership-changed body per change: token.peerId = change.newOwner. -/
def BoardState.setOwner (s : BoardState) (layerId tokenId : String) (newOwner : Option String) : BoardState :=
  s.modifyToken layerId tokenId (fun t => { t with peerId := newOwner })

/-- The removal phase of the player-disconnected-update case: every layer
filters out the tokens whose id is the removed token id. -/
def removePhase (s : BoardState) (removedTokenId : String) : BoardState :=
  { s with layers := (s.layers.map
      (fun l => { l with tokens := (l.tokens.filter (fun t => !(t.id == removedTokenId))) })) }

/-- JS truthiness default: event.durationMillis || 2000 (0 and undefined
both fall back to the default). -/
def jsOrDefault (v : Option Nat) (d : Nat) : Nat :=
  match v with
  | some n => if n = 0 then d else n
  | none => d

/-- EventHandler.handleEvent of src/board-interactive.js, case by case.
The parameter now stands for Date.now() read in the ping case.  The
function is total: no event application can raise. -/
def handleEvent (now : Nat) (s : BoardState) (e : Event) : BoardState :=
  match e with
  | .gameStateUpdate layers => { s with layers := layers }
  | .tokenMoved layerId tokenId x y =>
      s.modifyToken layerId tokenId (fun t => { t with x := x, y := y })
  | .tokenDeleted layerId tokenId => s.removeToken layerId tokenId
  | .tokenAdded layerId tokenData => s.addToken layerId tokenData
  | .tokenPropertyChanged layerId tokenId properties =>
      match properties with
      | some props => s.modifyToken layerId tokenId (fun t => t.applyProps props)
      | none => s
  | .tokenOwnershipChanged changes =>
      changes.foldl (fun st c => st.setOwner c.layerId c.tokenId c.newOwner) s
  | .playerDisconnectedUpdate changes =>
      changes.unclaimedTokens.foldl (fun st c => st.setOwner c.layerId c.tokenId none)
        (removePhase s changes.removedTokenId)
  | .ping x y durationMillis =>
      { s with pings := s.pings ++
        [{ x := x, y := y, startTime := now, durationMillis := jsOrDefault durationMillis 2000 }] }
  | .layerAdded layer => { s with layers := s.layers ++ [layer] }
  | .layerDeleted layerId => { s with layers := s.layers.filter (fun l => !(l.id == layerId)) }
  | .layerVisibilityChanged layerId visible => s.modifyLayer layerId (fun l => { l with visible := visible })
  | .layerRenamed layerId name => s.modifyLayer layerId (fun l => { l with name := name })
  | .layerBackgroundChanged layerId background => s.modifyLayer layerId (fun l => { l with background := some background })
  | .layerBackgroundCleared layerId => s.modifyLayer layerId (fun l => { l with background := none })
  | .layerBackgroundScaled layerId scale =>
      s.modifyLayer layerId (fun l => match l.background with
        | some b => { l with background := some { b with scale := scale } }
        | none => l)
  | .layerBackgroundMoved layerId x y =>
      s.modifyLayer layerId (fun l => match l.background with
        | some b => { l with background := some { b with x := x, y := y } }
        | none => l)

/-- Folding a sequence of events through the reducer. -/
def reduce (now : Nat) (s : BoardState) (events : List Event) : BoardState :=
  events.foldl (handleEvent now) s

/-- An event references only ids absent from the document: its target layer
id or token id (every one of them, for batched events) does not exist. -/
def targetMissing (s : BoardState) (e : Event) : Bool :=
  match e with
  | .gameStateUpdate _ => false
  | .tokenMoved layerId tokenId _ _ => (s.findToken layerId tokenId).isNone
  | .tokenDeleted layerId tokenId => (s.findToken layerId tokenId).isNone
  | .tokenAdded layerId _ => (s.findLayer layerId).isNone
  | .tokenPropertyChanged layerId tokenId _ => (s.findToken layerId tokenId).isNone
  | .tokenOwnershipChanged changes => changes.all (fun c => (s.findToken c.layerId c.tokenId).isNone)
  | .playerDisconnectedUpdate changes =>
      s.layers.all (fun l => l.tokens.all (fun t => !(t.id == changes.removedTokenId)))
        && changes.unclaimedTokens.all (fun c => (s.findToken c.layerId c.tokenId).isNone)
  | .ping _ _ _ => false
  | .layerAdded _ => false
  | .layerDeleted layerId => (s.findLayer layerId).isNone
  | .layerVisibilityChanged layerId _ => (s.findLayer layerId).isNone
  | .layerRenamed layerId _ => (s.findLayer layerId).isNone
  | .layerBackgroundChanged layerId _ => (s.findLayer layerId).isNone
  | .layerBackgroundCleared layerId => (s.findLayer layerId).isNone
  | .layerBackgroundScaled layerId _ => (s.findLayer layerId).isNone
  | .layerBackgroundMoved layerId _ _ => (s.findLayer layerId).isNone

/-- A concrete layer used by the C1 witness. -/
def layerC1 : Layer :=
  { id := "layer_a", name := "Player Layer", visible := true, background := none, tokens := [] }

/-- Invariant: token ids are unique within each layer. -/
def tokensNodup (s : BoardState) : Prop :=
  ∀ l ∈ s.layers, (l.tokens.map Token.id).Nodup

/-- Concrete document for the C10 witness: one layer with one token. -/
def tokenC10 : Token :=
  { id := "token_a", x := 0, y := 0, color := "#ff0000", peerId := none, name := none, size := none }

def layerC10 : Layer :=
  { id := "layer_a", name := "Player Layer", visible := true, background := none,
    tokens := [tokenC10] }

def boardC10 : BoardState := { layers := [layerC10], pings := [] }

/-- Uniqueness of layer ids in the document (layers are addressed by id). -/
def layersNodup (s : BoardState) : Prop := (s.layers.map Layer.id).Nodup

/-- Rewriting every token's owner as a function of its layer id, its token
id and its current owner.  Ownership batches are shown to act like this on
documents with unique ids. -/
def mapOwners (f : String → String → Option String → Option String) (s : BoardState) : BoardState :=
  { s with layers := (s.layers.map (fun l =>
      { l with tokens := l.tokens.map (fun t => { t with peerId := f l.id t.id t.peerId }) })) }

/-- Folding a batch of ownership changes, as the token-ownership-changed
case of handleEvent does. -/
def applyChanges (cs : List OwnershipChange) (s : BoardState) : BoardState :=
  cs.foldl (fun st c => st.setOwner c.layerId c.tokenId c.newOwner) s

/-- The owner a batch leaves at ids (li, ti) when the owner there was o:
the last matching change wins. -/
def finalOwner (cs : List OwnershipChange) (li ti : String) (o : Option String) : Option String :=
  cs.foldl (fun ow c => if li == c.layerId && ti == c.tokenId then c.newOwner else ow) o

/-- The batch the host builds for a claim-token-request from requester
peerId targeting (layerId, tokenId) in CommunicationManager._handleMessage:
first one unclaim change for every token the requester currently owns
(iterating layers and tokens in order), then, if the requested token
exists, one change claiming it for the requester. -/
def claimChanges (s : BoardState) (peerId layerId tokenId : String) : List OwnershipChange :=
  (s.layers.flatMap (fun l => (l.tokens.filter (fun t => t.peerId == some peerId)).map
      (fun t => ({ layerId := l.id, tokenId := t.id, newOwner := none } : OwnershipChange))))
    ++ (match s.findLayer layerId with
      | some layer =>
        match layer.tokens.find? (fun t => t.id == tokenId) with
        | some token =>
            [({ layerId := layer.id, tokenId := token.id, newOwner := some peerId } : OwnershipChange)]
        | none => []
      | none => [])

/-- How many tokens of the whole document are owned by peerId. -/
def countOwned (peerId : String) (s : BoardState) : Nat :=
  (s.layers.map (fun l => l.tokens.countP (fun t => t.peerId == some peerId))).sum

/-- Concrete document for the C2 witness: one layer, one token owned by the
requester and one unclaimed token. -/
def tokenC2a : Token :=
  { id := "tA", x := 0, y := 0, color := "#111111", peerId := some "peer_1",
    name := none, size := none }

def tokenC2b : Token :=
  { id := "tB", x := 5, y := 5, color := "#222222", peerId := none, name := none, size := none }

def layerC2 : Layer :=
  { id := "L1", name := "Player Layer", visible := true, background := none,
    tokens := [tokenC2a, tokenC2b] }

def boardC2 : BoardState := { layers := [layerC2], pings := [] }

/-- The changes object built by the host's onconnectionstatechange handler
when the link of peerId reaches a terminal state: the departing player's
original token id token_<peerId>, plus a reference to every other token the
player owns (iterating layers and tokens in order).  The handler does NOT
read the live document (eventHandler.boardState, used by every other
handler in communication.js): it iterates this.session.vtt.layers, an
init-time snapshot.  The game-state-update at startup aliases
boardState.layers to session.vtt.layers, but a layer-deleted event
(boardState.layers = filter(...)) or a board load (game-state-update with a
fresh vtt) rebinds boardState.layers to a new array while session.vtt is
never reassigned, so the snapshot argument vtt passed here can lack layers
the live document has. -/
def disconnectChanges (vtt : BoardState) (peerId : String) : DisconnectChanges :=
  { removedTokenId := "token_" ++ peerId,
    unclaimedTokens := vtt.layers.flatMap (fun l =>
      (l.tokens.filter (fun t => t.peerId == some peerId && !(t.id == "token_" ++ peerId))).map
        (fun t => ({ layerId := l.id, tokenId := t.id } : TokenRef))) }

/-- Concrete data for C3: the departing player p1 owns its original token
token_p1 and one other token tX on layer L1; tY is owned by someone else. -/
def tokenC3orig : Token :=
  { id := "token_p1", x := 0, y := 0, color := "#333333", peerId := some "p1",
    name := none, size := none }

def tokenC3other : Token :=
  { id := "tX", x := 9, y := 9, color := "#444444", peerId := some "p1",
    name := none, size := none }

def tokenC3free : Token :=
  { id := "tY", x := 1, y := 2, color := "#555555", peerId := some "p2",
    name := none, size := none }

def layerC3 : Layer :=
  { id := "L1", name := "Player Layer", visible := true, background := none,
    tokens := [tokenC3orig, tokenC3other, tokenC3free] }

def boardC3 : BoardState := { layers := [layerC3], pings := [] }

/-- The stale session.vtt snapshot the disconnect handler reads: the
document as it stood at init (layer L1 only; the layer object is shared
with the live document, so p1's tokens on L1 are visible). -/
def vttC3 : BoardState := boardC3

/-- A token the departing p1 claimed on a layer added after the
vtt/boardState aliasing was broken: it exists only in the live document. -/
def tokenC3z : Token :=
  { id := "tZ", x := 3, y := 4, color := "#666666", peerId := some "p1",
    name := none, size := none }

def layerC3added : Layer :=
  { id := "L2", name := "Dungeon", visible := true, background := none,
    tokens := [tokenC3z] }

/-- The live document (eventHandler.boardState) at the moment p1's link
reaches a terminal state: L1 plus the later-added L2. -/
def boardC3live : BoardState := { layers := [layerC3, layerC3added], pings := [] }

/-- Constant minDistance of updateDistanceBasedAudio. -/
def minDistance : ℚ := 40

/-- Constant maxDistance of updateDistanceBasedAudio. -/
def maxDistance : ℚ := 1200

/-- Constant minVolume (the floor) of updateDistanceBasedAudio. -/
def minVolume : ℚ := 0.05

/-- The volumeRatio computed by updateDistanceBasedAudio as a function of
the distance between the two owned tokens: 1 when distance <= minDistance,
the normalized inverse-square falloff when distance < maxDistance, else the
initial 0.  JS numbers are embedded as rationals. -/
def volumeRatio (distance : ℚ) : ℚ :=
  if distance ≤ minDistance then 1
  else if distance < maxDistance then
    ((1 / (distance * distance)) - (1 / (maxDistance * maxDistance)))
      / ((1 / (minDistance * minDistance)) - (1 / (maxDistance * maxDistance)))
  else 0

/-- finalVolume = minVolume + (maxVolume - minVolume) * volumeRatio, the
value assigned to audioEl.volume when both tokens exist. -/
def finalVolume (maxVolume distance : ℚ) : ℚ :=
  minVolume + (maxVolume - minVolume) * volumeRatio distance

/-- The volume written for a peer: maxVolume when the local participant owns
no token or the peer owns none, else finalVolume of the distance. -/
def audioVolume (hasMyToken hasPeerToken : Bool) (maxVolume distance : ℚ) : ℚ :=
  if hasMyToken && hasPeerToken then finalVolume maxVolume distance else maxVolume

/-- Ready state of an RTCDataChannel; the constructor opened stands for the
JS string value "open". -/
inductive RTCDataChannelState where
  | connecting
  | opened
  | closing
  | closed
  deriving DecidableEq, Repr

structure DataChannel where
  readyState : RTCDataChannelState
  deriving DecidableEq, Repr

/-- The WebRTCManager wrapper (class reproduced in src/README.md): its id,
reassigned by processAnswer on re-keying, and its optional data channel. -/
structure WebRTCManager where
  id : String
  dataChannel : Option DataChannel
  deriving DecidableEq, Repr

/-- session.peers: a JS Map from id to WebRTCManager, embedded as its
insertion-ordered entry list; set and delete maintain key uniqueness. -/
abbrev Directory := List (String × WebRTCManager)

/-- Map.prototype.get. -/
def dirGet (d : Directory) (k : String) : Option WebRTCManager :=
  (d.find? (fun p => p.1 == k)).map (fun p => p.2)

/-- Map.prototype.set: replace the entry in place when the key exists, else
append a new entry. -/
def dirSet (d : Directory) (k : String) (v : WebRTCManager) : Directory :=
  if d.any (fun p => p.1 == k) then d.map (fun p => if p.1 == k then (k, v) else p)
  else d ++ [(k, v)]

/-- Map.prototype.delete. -/
def dirDelete (d : Directory) (k : String) : Directory :=
  d.filter (fun p => !(p.1 == k))

/-- CommunicationManager.processAnswer restricted to the session directory:
look up the pending link by inviteId (the code throws when it is absent,
carried here as Except.error with the thrown message), delete the inviteId
entry, store the link under the answering participant id and reassign the
link's id field. -/
def processAnswer (d : Directory) (inviteId fromId : String) : Except String Directory :=
  match dirGet d inviteId with
  | none => Except.error ("No pending invite found for inviteId: " ++ inviteId)
  | some link => Except.ok (dirSet (dirDelete d inviteId) fromId { link with id := fromId })

/-- The directory the GM session holds after processGmInput invoked
processAnswer: the thrown error is caught there (try/catch around
processAnswer) and the session is left untouched. -/
def processAnswerRun (d : Directory) (inviteId fromId : String) : Directory :=
  match processAnswer d inviteId fromId with
  | Except.ok d2 => d2
  | Except.error _ => d

/-- C6 counterexample data: a pending invite link and an already connected
participant link under the id the invite will be re-keyed to. -/
def linkInvite : WebRTCManager := { id := "invite_abc", dataChannel := none }

def linkPeer : WebRTCManager := { id := "peer_xyz", dataChannel := none }

def dirC6 : Directory := [("invite_abc", linkInvite), ("peer_xyz", linkPeer)]

def dirC6w : Directory := [("invite_abc", linkInvite)]

/-- Whether the manager's data channel exists and is in the open state. -/
def isChannelOpen (m : WebRTCManager) : Bool :=
  match m.dataChannel with
  | some ch => ch.readyState == RTCDataChannelState.opened
  | none => false

/-- WebRTCManager.send (src/README.md): if the data channel exists and its
readyState is "open", deliver the JSON-stringified payload on the channel;
otherwise log and drop the message.  The first component is the delivered
wire message (none = dropped), the second the manager afterwards; stringify
abstracts JSON.stringify. -/
def WebRTCManager.send (stringify : α → String) (m : WebRTCManager) (data : α) :
    Option String × WebRTCManager :=
  match m.dataChannel with
  | some ch =>
    if ch.readyState == RTCDataChannelState.opened then (some (stringify data), m)
    else (none, m)
  | none => (none, m)

def mgrClosed : WebRTCManager :=
  { id := "peer_a", dataChannel := some { readyState := RTCDataChannelState.closed } }

/-- The slice of the guest session state _handleP2POfferList touches. -/
structure GuestSession where
  myId : String
  gmId : String
  peers : Directory
  deriving DecidableEq, Repr

/-- A p2p-answer message (to, from, answer) sent to the GM for forwarding. -/
structure P2PAnswerMsg where
  toId : String
  fromId : String
  answer : String
  deriving DecidableEq, Repr

/-- Processing of one [otherPeerId, offer] entry of a p2p-offer-list by
CommunicationManager._handleP2POfferList: if the peer is already linked or
is the guest itself, return with nothing created and nothing sent; else
create a Peer Link (mkLink abstracts the WebRTCManager construction), store
it in the directory, and send the produced answer (mkAnswer abstracts the
asynchronous accept-offer result) to the GM when a GM link exists. -/
def handleP2POfferEntry (mkLink : String → WebRTCManager) (mkAnswer : String → String)
    (s : GuestSession) (otherPeerId : String) (offer : String) :
    GuestSession × List P2PAnswerMsg :=
  if s.peers.any (fun p => p.1 == otherPeerId) || otherPeerId == s.myId then (s, [])
  else
    let peers2 := dirSet s.peers otherPeerId (mkLink otherPeerId)
    match dirGet peers2 s.gmId with
    | some _ => ({ s with peers := peers2 },
        [{ toId := otherPeerId, fromId := s.myId, answer := mkAnswer offer }])
    | none => ({ s with peers := peers2 }, [])

def sessC9 : GuestSession :=
  { myId := "peer_me", gmId := "peer_gm",
    peers := [("peer_b", { id := "peer_b", dataChannel := none })] }

/-! ### Theorems -/

theorem updateFirst_of_find?_none {p : α → Bool} {f : α → α} {xs : List α}
    (h : xs.find? p = none) : updateFirst p f xs = xs := by
  induction xs with
  | nil => rfl
  | cons x xs ih =>
    rw [List.find?_eq_none] at h
    have hx : ¬ p x = true := h x (List.mem_cons_self x xs)
    have hxs : xs.find? p = none := List.find?_eq_none.mpr (fun a ha => h a (List.mem_cons_of_mem x ha))
    simp [updateFirst, hx, ih hxs]

theorem updateFirst_of_fix {p : α → Bool} {f : α → α} {xs : List α} {a : α}
    (h : xs.find? p = some a) (hf : f a = a) : updateFirst p f xs = xs := by
  induction xs with
  | nil => cases h
  | cons x xs ih =>
    by_cases hx : p x = true
    · rw [List.find?_cons_of_pos xs hx] at h
      have hax : x = a := by injection h
      subst hax
      simp [updateFirst, hx, hf]
    · rw [List.find?_cons_of_neg xs hx] at h
      simp [updateFirst, hx, ih h]

theorem find?_updateFirst {p : α → Bool} {f : α → α} (hf : ∀ a, p (f a) = p a) (xs : List α) :
    (updateFirst p f xs).find? p = (xs.find? p).map f := by
  induction xs with
  | nil => rfl
  | cons x xs ih =>
    by_cases hx : p x = true
    · have hfx : p (f x) = true := (hf x).trans hx
      simp [updateFirst, hx, List.find?_cons_of_pos _ hfx]
    · simp [updateFirst, hx, List.find?_cons_of_neg _ hx, ih]

theorem mem_updateFirst {p : α → Bool} {f : α → α} {xs : List α} {b : α}
    (h : b ∈ updateFirst p f xs) : b ∈ xs ∨ ∃ a, a ∈ xs ∧ p a = true ∧ b = f a := by
  induction xs with
  | nil => cases h
  | cons x xs ih =>
    by_cases hx : p x = true
    · simp only [updateFirst, hx, if_true] at h
      rcases List.mem_cons.mp h with h | h
      · exact Or.inr ⟨x, List.mem_cons_self x xs, hx, h⟩
      · exact Or.inl (List.mem_cons_of_mem x h)
    · simp only [updateFirst, hx, if_false] at h
      rcases List.mem_cons.mp h with h | h
      · exact Or.inl (h ▸ List.mem_cons_self x xs)
      · rcases ih h with h' | ⟨a, ha, hpa, hb⟩
        · exact Or.inl (List.mem_cons_of_mem x h')
        · exact Or.inr ⟨a, List.mem_cons_of_mem x ha, hpa, hb⟩

theorem map_eq_self {f : α → α} {xs : List α} (h : ∀ x ∈ xs, f x = x) : xs.map f = xs :=
  (List.map_congr_left h).trans (List.map_id xs)

theorem modifyLayer_of_findLayer_none {s : BoardState} {layerId : String} {f : Layer → Layer}
    (h : s.findLayer layerId = none) : s.modifyLayer layerId f = s := by
  unfold BoardState.findLayer at h
  unfold BoardState.modifyLayer
  rw [updateFirst_of_find?_none h]

theorem modifyToken_of_findToken_none {s : BoardState} {layerId tokenId : String} {f : Token → Token}
    (h : s.findToken layerId tokenId = none) : s.modifyToken layerId tokenId f = s := by
  unfold BoardState.findToken at h
  unfold BoardState.modifyToken
  cases hfl : s.findLayer layerId with
  | none =>
    unfold BoardState.findLayer at hfl
    rw [updateFirst_of_find?_none hfl]
  | some L =>
    rw [hfl] at h
    unfold BoardState.findLayer at hfl
    rw [updateFirst_of_fix hfl (by rw [updateFirst_of_find?_none h])]

theorem setOwner_of_findToken_none {s : BoardState} {layerId tokenId : String} {o : Option String}
    (h : s.findToken layerId tokenId = none) : s.setOwner layerId tokenId o = s :=
  modifyToken_of_findToken_none h

theorem removeToken_of_findToken_none {s : BoardState} {layerId tokenId : String}
    (h : s.findToken layerId tokenId = none) : s.removeToken layerId tokenId = s := by
  unfold BoardState.findToken at h
  unfold BoardState.removeToken
  cases hfl : s.findLayer layerId with
  | none =>
    unfold BoardState.findLayer at hfl
    rw [updateFirst_of_find?_none hfl]
  | some L =>
    rw [hfl] at h
    rw [List.find?_eq_none] at h
    have hfix : { L with tokens := L.tokens.filter (fun t => !(t.id == tokenId)) } = L := by
      have : L.tokens.filter (fun t => !(t.id == tokenId)) = L.tokens :=
        List.filter_eq_self.mpr (fun t ht => by simpa using h t ht)
      rw [this]
    unfold BoardState.findLayer at hfl
    rw [updateFirst_of_fix hfl hfix]

theorem addToken_of_findLayer_none {s : BoardState} {layerId : String} {tok : Token}
    (h : s.findLayer layerId = none) : s.addToken layerId tok = s := by
  unfold BoardState.findLayer at h
  unfold BoardState.addToken
  rw [updateFirst_of_find?_none h]

theorem foldl_setOwner_of_missing {s : BoardState} {cs : List OwnershipChange}
    (h : ∀ c ∈ cs, s.findToken c.layerId c.tokenId = none) :
    cs.foldl (fun st c => st.setOwner c.layerId c.tokenId c.newOwner) s = s := by
  induction cs with
  | nil => rfl
  | cons c cs ih =>
    have h1 : s.setOwner c.layerId c.tokenId c.newOwner = s :=
      setOwner_of_findToken_none (h c (List.mem_cons_self c cs))
    simp only [List.foldl_cons, h1]
    exact ih (fun c' hc' => h c' (List.mem_cons_of_mem c hc'))

theorem foldl_unclaim_of_missing {s : BoardState} {cs : List TokenRef}
    (h : ∀ c ∈ cs, s.findToken c.layerId c.tokenId = none) :
    cs.foldl (fun st c => st.setOwner c.layerId c.tokenId none) s = s := by
  induction cs with
  | nil => rfl
  | cons c cs ih =>
    have h1 : s.setOwner c.layerId c.tokenId none = s :=
      setOwner_of_findToken_none (h c (List.mem_cons_self c cs))
    simp only [List.foldl_cons, h1]
    exact ih (fun c' hc' => h c' (List.mem_cons_of_mem c hc'))

/-- Core no-op property: an event all of whose targets are missing leaves the
document unchanged. -/
theorem handleEvent_of_targetMissing (now : Nat) (s : BoardState) (e : Event)
    (h : targetMissing s e = true) : handleEvent now s e = s := by
  cases e with
  | gameStateUpdate layers => simp [targetMissing] at h
  | tokenMoved layerId tokenId x y =>
    simp only [targetMissing, Option.isNone_iff_eq_none] at h
    exact modifyToken_of_findToken_none h
  | tokenDeleted layerId tokenId =>
    simp only [targetMissing, Option.isNone_iff_eq_none] at h
    exact removeToken_of_findToken_none h
  | tokenAdded layerId tok =>
    simp only [targetMissing, Option.isNone_iff_eq_none] at h
    exact addToken_of_findLayer_none h
  | tokenPropertyChanged layerId tokenId properties =>
    simp only [targetMissing, Option.isNone_iff_eq_none] at h
    cases properties with
    | some props => exact modifyToken_of_findToken_none h
    | none => rfl
  | tokenOwnershipChanged changes =>
    simp only [targetMissing, List.all_eq_true, Option.isNone_iff_eq_none] at h
    exact foldl_setOwner_of_missing h
  | playerDisconnectedUpdate changes =>
    simp only [targetMissing, Bool.and_eq_true, List.all_eq_true] at h
    obtain ⟨hrm, hun⟩ := h
    show (changes.unclaimedTokens.foldl (fun st c => st.setOwner c.layerId c.tokenId none)
      (removePhase s changes.removedTokenId)) = s
    have hmap : removePhase s changes.removedTokenId = s := by
      unfold removePhase
      have h2 : s.layers.map
          (fun l => ({ l with tokens := (l.tokens.filter
            (fun t => !(t.id == changes.removedTokenId))) } : Layer)) = s.layers := by
        apply map_eq_self
        intro l hl
        have h3 : l.tokens.filter (fun t => !(t.id == changes.removedTokenId)) = l.tokens :=
          List.filter_eq_self.mpr (fun t ht => hrm l hl t ht)
        rw [h3]
      rw [h2]
    rw [hmap]
    exact foldl_unclaim_of_missing (fun c hc => by
      simpa [Option.isNone_iff_eq_none] using hun c hc)
  | ping x y durationMillis => simp [targetMissing] at h
  | layerAdded layer => simp [targetMissing] at h
  | layerDeleted layerId =>
    simp only [targetMissing, Option.isNone_iff_eq_none] at h
    unfold BoardState.findLayer at h
    rw [List.find?_eq_none] at h
    show { s with layers := s.layers.filter (fun l => !(l.id == layerId)) } = s
    have : s.layers.filter (fun l => !(l.id == layerId)) = s.layers :=
      List.filter_eq_self.mpr (fun l hl => by simpa using h l hl)
    rw [this]
  | layerVisibilityChanged layerId visible =>
    simp only [targetMissing, Option.isNone_iff_eq_none] at h
    exact modifyLayer_of_findLayer_none h
  | layerRenamed layerId name =>
    simp only [targetMissing, Option.isNone_iff_eq_none] at h
    exact modifyLayer_of_findLayer_none h
  | layerBackgroundChanged layerId background =>
    simp only [targetMissing, Option.isNone_iff_eq_none] at h
    exact modifyLayer_of_findLayer_none h
  | layerBackgroundCleared layerId =>
    simp only [targetMissing, Option.isNone_iff_eq_none] at h
    exact modifyLayer_of_findLayer_none h
  | layerBackgroundScaled layerId scale =>
    simp only [targetMissing, Option.isNone_iff_eq_none] at h
    exact modifyLayer_of_findLayer_none h
  | layerBackgroundMoved layerId x y =>
    simp only [targetMissing, Option.isNone_iff_eq_none] at h
    exact modifyLayer_of_findLayer_none h

/-- C1: the reducer EventHandler.handleEvent is a total function (embedded
as such: no event application of the message vocabulary can raise), and
applying an event whose target layer id or token id does not exist in the
current document, reached from the empty document by any event sequence,
leaves the document unchanged. -/
theorem reduce_missingTarget_noop (now : Nat) (es : List Event) (e : Event)
    (h : targetMissing (reduce now emptyBoard es) e = true) :
    handleEvent now (reduce now emptyBoard es) e = reduce now emptyBoard es :=
  handleEvent_of_targetMissing now (reduce now emptyBoard es) e h

/-- Witness for C1: after adding one layer to the empty document, a
token-moved event for an id that is not present is a no-op. -/
theorem reduce_missingTarget_noop_witness :
    targetMissing (reduce 0 emptyBoard [Event.layerAdded layerC1])
        (Event.tokenMoved "layer_a" "token_missing" 1 2) = true
      ∧ handleEvent 0 (reduce 0 emptyBoard [Event.layerAdded layerC1])
          (Event.tokenMoved "layer_a" "token_missing" 1 2)
        = reduce 0 emptyBoard [Event.layerAdded layerC1] :=
  ⟨by decide, reduce_missingTarget_noop 0 [Event.layerAdded layerC1]
    (Event.tokenMoved "layer_a" "token_missing" 1 2) (by decide)⟩

theorem addTokenToLayer_id (tok : Token) (l : Layer) : (addTokenToLayer tok l).id = l.id := by
  unfold addTokenToLayer
  split <;> rfl

theorem addToken_of_dup {s : BoardState} {layerId : String} {tok : Token} {L : Layer}
    (hL : s.findLayer layerId = some L)
    (hdup : L.tokens.any (fun t => t.id == tok.id) = true) :
    s.addToken layerId tok = s := by
  unfold BoardState.findLayer at hL
  unfold BoardState.addToken
  rw [updateFirst_of_fix hL (by unfold addTokenToLayer; rw [if_pos hdup])]

theorem addToken_idem (s : BoardState) (layerId : String) (tok : Token) :
    (s.addToken layerId tok).addToken layerId tok = s.addToken layerId tok := by
  cases hfl : s.findLayer layerId with
  | none =>
    simp only [addToken_of_findLayer_none hfl]
  | some L =>
    by_cases hdup : L.tokens.any (fun t => t.id == tok.id) = true
    · simp only [addToken_of_dup hfl hdup]
    · have hdup' : L.tokens.any (fun t => t.id == tok.id) = false := by
        simpa using hdup
      have hpres : ∀ a : Layer, ((addTokenToLayer tok a).id == layerId) = (a.id == layerId) := by
        intro a; rw [addTokenToLayer_id]
      have hfind2 : (s.addToken layerId tok).findLayer layerId = some (addTokenToLayer tok L) := by
        unfold BoardState.findLayer at hfl ⊢
        unfold BoardState.addToken
        show ((updateFirst (fun l => l.id == layerId) (addTokenToLayer tok) s.layers).find?
          (fun l => l.id == layerId)) = _
        rw [find?_updateFirst hpres, hfl]
        rfl
      have hdup2 : (addTokenToLayer tok L).tokens.any (fun t => t.id == tok.id) = true := by
        unfold addTokenToLayer
        rw [if_neg (by simp [hdup'])]
        simp
      exact addToken_of_dup hfind2 hdup2

theorem addTokenToLayer_nodup {tok : Token} {l : Layer}
    (h : (l.tokens.map Token.id).Nodup) :
    ((addTokenToLayer tok l).tokens.map Token.id).Nodup := by
  unfold addTokenToLayer
  split
  · exact h
  · rename_i hc
    have hc' : ∀ t ∈ l.tokens, ¬ t.id = tok.id := by simpa using hc
    show ((l.tokens ++ [tok]).map Token.id).Nodup
    rw [List.map_append, List.nodup_append]
    refine ⟨h, List.nodup_singleton tok.id, ?_⟩
    intro x hx hx'
    simp only [List.map_cons, List.map_nil, List.mem_singleton] at hx'
    subst hx'
    rcases List.mem_map.mp hx with ⟨t, ht, hid⟩
    exact hc' t ht hid

/-- C10: applying token-added with an id already present on the target layer
leaves the document unchanged; applying the same token-added twice equals
applying it once; and token-added preserves per-layer uniqueness of token
ids. -/
theorem tokenAdded_duplicate_noop_idempotent (now : Nat) (s : BoardState)
    (layerId : String) (tok : Token) :
    (∀ L, s.findLayer layerId = some L → L.tokens.any (fun t => t.id == tok.id) = true →
        handleEvent now s (Event.tokenAdded layerId tok) = s)
    ∧ handleEvent now (handleEvent now s (Event.tokenAdded layerId tok)) (Event.tokenAdded layerId tok)
        = handleEvent now s (Event.tokenAdded layerId tok)
    ∧ (tokensNodup s → tokensNodup (handleEvent now s (Event.tokenAdded layerId tok))) := by
  refine ⟨?_, ?_, ?_⟩
  · intro L hL hdup
    exact addToken_of_dup hL hdup
  · exact addToken_idem s layerId tok
  · intro hnd l hl
    have hl' : l ∈ (s.addToken layerId tok).layers := hl
    unfold BoardState.addToken at hl'
    rcases mem_updateFirst hl' with h | ⟨a, ha, _, rfl⟩
    · exact hnd l h
    · exact addTokenToLayer_nodup (hnd a ha)

/-- Witness for C10 at a concrete document: the duplicate token-added is a
no-op and the uniqueness invariant is preserved. -/
theorem tokenAdded_duplicate_noop_idempotent_witness :
    boardC10.findLayer "layer_a" = some layerC10
      ∧ layerC10.tokens.any (fun t => t.id == tokenC10.id) = true
      ∧ handleEvent 0 boardC10 (Event.tokenAdded "layer_a" tokenC10) = boardC10
      ∧ tokensNodup boardC10
      ∧ tokensNodup (handleEvent 0 boardC10 (Event.tokenAdded "layer_a" tokenC10)) :=
  ⟨by decide, by decide,
    (tokenAdded_duplicate_noop_idempotent 0 boardC10 "layer_a" tokenC10).1 layerC10
      (by decide) (by decide),
    by unfold tokensNodup; decide,
    (tokenAdded_duplicate_noop_idempotent 0 boardC10 "layer_a" tokenC10).2.2
      (by unfold tokensNodup; decide)⟩

theorem handleEvent_ownershipChanged (now : Nat) (s : BoardState) (cs : List OwnershipChange) :
    handleEvent now s (Event.tokenOwnershipChanged cs) = applyChanges cs s := rfl

theorem finalOwner_cons (c : OwnershipChange) (cs : List OwnershipChange) (li ti : String)
    (o : Option String) :
    finalOwner (c :: cs) li ti o
      = finalOwner cs li ti (if li == c.layerId && ti == c.tokenId then c.newOwner else o) := rfl

theorem finalOwner_append (cs ds : List OwnershipChange) (li ti : String) (o : Option String) :
    finalOwner (cs ++ ds) li ti o = finalOwner ds li ti (finalOwner cs li ti o) := by
  simp [finalOwner, List.foldl_append]

theorem mapOwners_id (s : BoardState) : mapOwners (fun _ _ o => o) s = s := by
  unfold mapOwners
  have h : s.layers.map (fun l =>
      { l with tokens := l.tokens.map (fun t => { t with peerId := t.peerId }) }) = s.layers := by
    apply map_eq_self
    intro l _
    have h2 : l.tokens.map (fun t => { t with peerId := t.peerId }) = l.tokens :=
      map_eq_self (fun t _ => rfl)
    rw [h2]
  rw [h]

theorem mapOwners_comp (f g : String → String → Option String → Option String) (s : BoardState) :
    mapOwners f (mapOwners g s) = mapOwners (fun li ti o => f li ti (g li ti o)) s := by
  unfold mapOwners
  simp only [List.map_map]
  congr 1
  apply List.map_congr_left
  intro l _
  simp only [Function.comp, List.map_map]
  rfl

theorem mapOwners_congr {f g : String → String → Option String → Option String} {s : BoardState}
    (h : ∀ l ∈ s.layers, ∀ t ∈ l.tokens, f l.id t.id t.peerId = g l.id t.id t.peerId) :
    mapOwners f s = mapOwners g s := by
  unfold mapOwners
  have hmap : s.layers.map (fun l =>
        ({ l with tokens := (l.tokens.map
          (fun t => ({ t with peerId := f l.id t.id t.peerId } : Token))) } : Layer))
      = s.layers.map (fun l =>
        ({ l with tokens := (l.tokens.map
          (fun t => ({ t with peerId := g l.id t.id t.peerId } : Token))) } : Layer)) := by
    apply List.map_congr_left
    intro l hl
    have htok : l.tokens.map (fun t => ({ t with peerId := f l.id t.id t.peerId } : Token))
        = l.tokens.map (fun t => ({ t with peerId := g l.id t.id t.peerId } : Token)) :=
      List.map_congr_left (fun t ht => by rw [h l hl t ht])
    rw [htok]
  rw [hmap]

theorem layersNodup_mapOwners {s : BoardState}
    (f : String → String → Option String → Option String) (h : layersNodup s) :
    layersNodup (mapOwners f s) := by
  unfold layersNodup at *
  have hids : (mapOwners f s).layers.map Layer.id = s.layers.map Layer.id := by
    unfold mapOwners
    rw [List.map_map]
    exact List.map_congr_left (fun l _ => rfl)
  rw [hids]
  exact h

theorem tokensNodup_mapOwners {s : BoardState}
    (f : String → String → Option String → Option String) (h : tokensNodup s) :
    tokensNodup (mapOwners f s) := by
  intro l' hl'
  unfold mapOwners at hl'
  rcases List.mem_map.mp hl' with ⟨l, hl, rfl⟩
  have hids : (l.tokens.map (fun t => { t with peerId := f l.id t.id t.peerId })).map Token.id
      = l.tokens.map Token.id := by
    rw [List.map_map]
    exact List.map_congr_left (fun t _ => rfl)
  show ((l.tokens.map (fun t => { t with peerId := f l.id t.id t.peerId })).map Token.id).Nodup
  rw [hids]
  exact h l hl

theorem updateFirst_token_owner_eq_map (tid : String) (o : Option String) {ts : List Token}
    (hnd : (ts.map Token.id).Nodup) :
    updateFirst (fun t => t.id == tid) (fun t => ({ t with peerId := o } : Token)) ts
      = ts.map (fun t => ({ t with peerId := if t.id == tid then o else t.peerId } : Token)) := by
  induction ts with
  | nil => rfl
  | cons t ts iht =>
    rw [List.map_cons] at hnd
    have hnd' := List.nodup_cons.mp hnd
    by_cases ht : (t.id == tid) = true
    · have htid : t.id = tid := by simpa using ht
      have hnotints : tid ∉ ts.map Token.id := htid ▸ hnd'.1
      have hts : ts.map (fun u => ({ u with peerId := if u.id == tid then o else u.peerId } : Token))
          = ts := by
        apply map_eq_self
        intro u hu
        have hne : ¬ (u.id == tid) = true := fun h2 =>
          hnotints ((by simpa using h2 : u.id = tid) ▸ List.mem_map.mpr ⟨u, hu, rfl⟩)
        rw [if_neg hne]
      have hstep : updateFirst (fun u => u.id == tid)
          (fun u => ({ u with peerId := o } : Token)) (t :: ts)
          = ({ t with peerId := o } : Token) :: ts := by
        simp [updateFirst, ht]
      rw [hstep, List.map_cons, if_pos ht, hts]
    · have hstep : updateFirst (fun u => u.id == tid)
          (fun u => ({ u with peerId := o } : Token)) (t :: ts)
          = t :: updateFirst (fun u => u.id == tid) (fun u => ({ u with peerId := o } : Token)) ts := by
        simp [updateFirst, ht]
      rw [hstep, iht hnd'.2, List.map_cons, if_neg ht]

/-- On a document with unique layer ids and unique token ids per layer, a
single ownership assignment is the pointwise owner rewrite at the matching
ids. -/
theorem setOwner_eq_mapOwners {s : BoardState} {lid tid : String} {o : Option String}
    (hUL : layersNodup s) (hUT : tokensNodup s) :
    s.setOwner lid tid o
      = mapOwners (fun li ti ow => if li == lid && ti == tid then o else ow) s := by
  unfold layersNodup at hUL
  unfold tokensNodup at hUT
  unfold BoardState.setOwner BoardState.modifyToken mapOwners
  have hmain : ∀ (ls : List Layer), (ls.map Layer.id).Nodup →
      (∀ l ∈ ls, (l.tokens.map Token.id).Nodup) →
      updateFirst (fun l => l.id == lid)
          (fun l => ({ l with tokens := (updateFirst (fun t => t.id == tid)
            (fun t => ({ t with peerId := o } : Token)) l.tokens) } : Layer)) ls
        = ls.map (fun l => ({ l with tokens := (l.tokens.map
            (fun t => ({ t with
              peerId := if l.id == lid && t.id == tid then o else t.peerId } : Token))) } : Layer)) := by
    intro ls
    induction ls with
    | nil => intro _ _; rfl
    | cons l ls ih =>
      intro hUL' hUT'
      rw [List.map_cons] at hUL'
      have hUL'' := List.nodup_cons.mp hUL'
      have hUTtail : ∀ l' ∈ ls, (l'.tokens.map Token.id).Nodup :=
        fun l' hl' => hUT' l' (List.mem_cons_of_mem l hl')
      by_cases hl : (l.id == lid) = true
      · have hlid : l.id = lid := by simpa using hl
        have hnotin : lid ∉ ls.map Layer.id := hlid ▸ hUL''.1
        have htok := updateFirst_token_owner_eq_map tid o
          (hUT' l (List.mem_cons_self l ls))
        have hrest : ls.map (fun l' => ({ l' with tokens := (l'.tokens.map
            (fun t => ({ t with
              peerId := if l'.id == lid && t.id == tid then o else t.peerId } : Token))) } : Layer))
            = ls := by
          apply map_eq_self
          intro l' hl'
          have hne : ¬ l'.id = lid := fun he => hnotin (he ▸ List.mem_map.mpr ⟨l', hl', rfl⟩)
          have htoks : l'.tokens.map (fun t => ({ t with
              peerId := if l'.id == lid && t.id == tid then o else t.peerId } : Token))
              = l'.tokens := by
            apply map_eq_self
            intro t _
            have hcond : ¬ ((l'.id == lid && t.id == tid) = true) := by
              simp [hne]
            rw [if_neg hcond]
          rw [htoks]
        have hhead : l.tokens.map (fun t => ({ t with
            peerId := if l.id == lid && t.id == tid then o else t.peerId } : Token))
            = l.tokens.map (fun t => ({ t with
              peerId := if t.id == tid then o else t.peerId } : Token)) :=
          List.map_congr_left (fun t _ => by rw [hl, Bool.true_and])
        have hstep : updateFirst (fun l' => l'.id == lid)
            (fun l' => ({ l' with tokens := (updateFirst (fun t => t.id == tid)
              (fun t => ({ t with peerId := o } : Token)) l'.tokens) } : Layer)) (l :: ls)
            = ({ l with tokens := (updateFirst (fun t => t.id == tid)
              (fun t => ({ t with peerId := o } : Token)) l.tokens) } : Layer) :: ls := by
          simp [updateFirst, hl]
        rw [hstep, List.map_cons, hrest, htok, hhead]
      · have hne : ¬ l.id = lid := by simpa using hl
        have hheadneg : l.tokens.map (fun t => ({ t with
            peerId := if l.id == lid && t.id == tid then o else t.peerId } : Token))
            = l.tokens := by
          apply map_eq_self
          intro t _
          have hcond : ¬ ((l.id == lid && t.id == tid) = true) := by
            simp [hne]
          rw [if_neg hcond]
        have hstep : updateFirst (fun l' => l'.id == lid)
            (fun l' => ({ l' with tokens := (updateFirst (fun t => t.id == tid)
              (fun t => ({ t with peerId := o } : Token)) l'.tokens) } : Layer)) (l :: ls)
            = l :: updateFirst (fun l' => l'.id == lid)
              (fun l' => ({ l' with tokens := (updateFirst (fun t => t.id == tid)
                (fun t => ({ t with peerId := o } : Token)) l'.tokens) } : Layer)) ls := by
          simp [updateFirst, hl]
        rw [hstep, ih hUL''.2 hUTtail, List.map_cons, hheadneg]
  rw [hmain s.layers hUL hUT]

/-- On a document with unique ids, a fold of ownership changes is the
pointwise rewrite by finalOwner. -/
theorem applyChanges_eq_mapOwners {cs : List OwnershipChange} {s : BoardState}
    (hUL : layersNodup s) (hUT : tokensNodup s) :
    applyChanges cs s = mapOwners (finalOwner cs) s := by
  induction cs generalizing s with
  | nil =>
    show s = mapOwners (finalOwner []) s
    exact (mapOwners_id s).symm
  | cons c cs ih =>
    show applyChanges cs (s.setOwner c.layerId c.tokenId c.newOwner) = _
    rw [setOwner_eq_mapOwners hUL hUT]
    rw [ih (layersNodup_mapOwners _ hUL) (tokensNodup_mapOwners _ hUT)]
    rw [mapOwners_comp]
    rfl

theorem finalOwner_all_none {cs : List OwnershipChange} (hnone : ∀ c ∈ cs, c.newOwner = none)
    (li ti : String) (o : Option String) :
    finalOwner cs li ti o
      = if cs.any (fun c => li == c.layerId && ti == c.tokenId) then none else o := by
  induction cs generalizing o with
  | nil => simp [finalOwner]
  | cons c cs ih =>
    rw [finalOwner_cons]
    have hc : c.newOwner = none := hnone c (List.mem_cons_self c cs)
    have htail : ∀ c' ∈ cs, c'.newOwner = none := fun c' h => hnone c' (List.mem_cons_of_mem c h)
    by_cases hm : (li == c.layerId && ti == c.tokenId) = true
    · rw [if_pos hm, hc, ih htail]
      simp [List.any_cons, hm, ite_self]
    · have hm' : (li == c.layerId && ti == c.tokenId) = false := by simpa using hm
      rw [if_neg hm, ih htail]
      simp [List.any_cons, hm']

/-- On a document with unique ids, the unclaim section of a host batch
mentions the position of a token of the document exactly when that token
passes the selection predicate q. -/
theorem any_unclaimList {s : BoardState} (hUL : layersNodup s) (hUT : tokensNodup s)
    (q : Token → Bool) (mk : String → String → OwnershipChange)
    (hmk1 : ∀ a b, (mk a b).layerId = a) (hmk2 : ∀ a b, (mk a b).tokenId = b)
    {l : Layer} {t : Token} (hl : l ∈ s.layers) (ht : t ∈ l.tokens) :
    (s.layers.flatMap (fun l' => (l'.tokens.filter q).map (fun t' => mk l'.id t'.id))).any
      (fun c => l.id == c.layerId && t.id == c.tokenId) = q t := by
  cases hq : q t with
  | true =>
    apply List.any_eq_true.mpr
    refine ⟨mk l.id t.id, ?_, ?_⟩
    · exact List.mem_flatMap.mpr ⟨l, hl,
        List.mem_map.mpr ⟨t, List.mem_filter.mpr ⟨ht, hq⟩, rfl⟩⟩
    · rw [hmk1, hmk2]
      simp
  | false =>
    apply List.any_eq_false.mpr
    intro c hc
    rcases List.mem_flatMap.mp hc with ⟨l2, hl2, hc2⟩
    rcases List.mem_map.mp hc2 with ⟨t2, ht2f, rfl⟩
    rcases List.mem_filter.mp ht2f with ⟨ht2, hq2⟩
    rw [hmk1, hmk2]
    intro hcontra
    rcases Bool.and_eq_true_iff.mp hcontra with ⟨he1, he2⟩
    have hle : l.id = l2.id := by simpa using he1
    have hte : t.id = t2.id := by simpa using he2
    have hll : l = l2 := List.inj_on_of_nodup_map hUL hl hl2 hle
    subst hll
    have htt : t = t2 := List.inj_on_of_nodup_map (hUT l hl) ht ht2 hte
    subst htt
    rw [hq] at hq2
    cases hq2

/-- Pointwise effect of the claim-token-request batch at every token
position of the document it was built from. -/
theorem finalOwner_claimChanges {s : BoardState} {req lid tid : String}
    (hUL : layersNodup s) (hUT : tokensNodup s)
    {l : Layer} {t : Token} (hl : l ∈ s.layers) (ht : t ∈ l.tokens) :
    finalOwner (claimChanges s req lid tid) l.id t.id t.peerId
      = (fun li ti o =>
          if (s.findToken lid tid).isSome && (li == lid && ti == tid) then some req
          else if o == some req then none else o) l.id t.id t.peerId := by
  unfold claimChanges
  rw [finalOwner_append]
  have hnone : ∀ c ∈ s.layers.flatMap (fun l' =>
      (l'.tokens.filter (fun t' => t'.peerId == some req)).map
        (fun t' => ({ layerId := l'.id, tokenId := t'.id, newOwner := none } : OwnershipChange))),
      c.newOwner = none := by
    intro c hc
    rcases List.mem_flatMap.mp hc with ⟨l2, _, hc2⟩
    rcases List.mem_map.mp hc2 with ⟨t2, _, rfl⟩
    rfl
  rw [finalOwner_all_none hnone]
  rw [any_unclaimList hUL hUT (fun t' => t'.peerId == some req)
    (fun a b => ({ layerId := a, tokenId := b, newOwner := none } : OwnershipChange))
    (fun a b => rfl) (fun a b => rfl) hl ht]
  cases hfl : s.findLayer lid with
  | none =>
    have hnf : s.findToken lid tid = none := by
      unfold BoardState.findToken
      rw [hfl]
    dsimp only
    rw [hnf]
    simp [finalOwner]
  | some layer =>
    cases hft : layer.tokens.find? (fun u => u.id == tid) with
    | none =>
      have hnf : s.findToken lid tid = none := by
        unfold BoardState.findToken
        rw [hfl]
        dsimp only
        exact hft
      dsimp only
      rw [hft]
      dsimp only
      rw [hnf]
      simp [finalOwner]
    | some token =>
      have hsf : s.findToken lid tid = some token := by
        unfold BoardState.findToken
        rw [hfl]
        dsimp only
        exact hft
      have h1 : layer.id = lid := by
        have hfl' : s.layers.find? (fun l' => l'.id == lid) = some layer := hfl
        have hp := List.find?_some hfl'
        simpa using hp
      have h2 : token.id = tid := by
        have hp := List.find?_some hft
        simpa using hp
      dsimp only
      rw [hft]
      dsimp only
      rw [hsf, h1, h2, finalOwner_cons]
      simp [finalOwner]

/-- Counting owners after a pointwise owner rewrite. -/
theorem countOwned_mapOwners (req : String)
    (f : String → String → Option String → Option String) (s : BoardState) :
    countOwned req (mapOwners f s)
      = (s.layers.map (fun l => l.tokens.countP
          (fun t => f l.id t.id t.peerId == some req))).sum := by
  unfold countOwned mapOwners
  rw [List.map_map]
  congr 1
  apply List.map_congr_left
  intro l _
  show ((l.tokens.map _).countP _) = _
  rw [List.countP_map]
  rfl

theorem countP_le_one_of_key (f : α → String) (a : String) {xs : List α} {p : α → Bool}
    (hnd : (xs.map f).Nodup) (hp : ∀ x ∈ xs, p x = true → f x = a) : xs.countP p ≤ 1 := by
  induction xs with
  | nil => simp
  | cons x xs ih =>
    rw [List.map_cons] at hnd
    have hnd' := List.nodup_cons.mp hnd
    rw [List.countP_cons]
    by_cases hx : p x = true
    · have hfx : f x = a := hp x (List.mem_cons_self x xs) hx
      have hzero : xs.countP p = 0 := by
        apply List.countP_eq_zero.mpr
        intro y hy hpy
        have hfy : f y = a := hp y (List.mem_cons_of_mem x hy) hpy
        exact hnd'.1 (by rw [hfx, ← hfy]; exact List.mem_map_of_mem f hy)
      rw [hzero]
      simp [hx]
    · have hxz : (if p x then 1 else 0) = 0 := by simp [hx]
      rw [hxz, Nat.add_zero]
      exact ih hnd'.2 (fun y hy hpy => hp y (List.mem_cons_of_mem x hy) hpy)

theorem sum_eq_zero_of {xs : List Nat} (h : ∀ x ∈ xs, x = 0) : xs.sum = 0 := by
  induction xs with
  | nil => rfl
  | cons x xs ih =>
    rw [List.sum_cons, h x (List.mem_cons_self x xs),
      ih (fun y hy => h y (List.mem_cons_of_mem x hy))]

theorem sum_counts_le_one (f : α → String) (a : String) {g : α → Nat} {ls : List α}
    (hnd : (ls.map f).Nodup) (hle : ∀ x ∈ ls, g x ≤ 1)
    (hkey : ∀ x ∈ ls, 0 < g x → f x = a) : (ls.map g).sum ≤ 1 := by
  induction ls with
  | nil => simp
  | cons x ls ih =>
    rw [List.map_cons] at hnd
    have hnd' := List.nodup_cons.mp hnd
    rw [List.map_cons, List.sum_cons]
    by_cases hx : 0 < g x
    · have hfx : f x = a := hkey x (List.mem_cons_self x ls) hx
      have hzero : (ls.map g).sum = 0 := by
        apply sum_eq_zero_of
        intro n hn
        rcases List.mem_map.mp hn with ⟨y, hy, rfl⟩
        by_contra hne
        have hy' : 0 < g y := Nat.pos_of_ne_zero hne
        have hfy : f y = a := hkey y (List.mem_cons_of_mem x hy) hy'
        exact hnd'.1 (by rw [hfx, ← hfy]; exact List.mem_map_of_mem f hy)
      rw [hzero]
      have := hle x (List.mem_cons_self x ls)
      omega
    · have hgx : g x = 0 := Nat.eq_zero_of_not_pos hx
      rw [hgx, Nat.zero_add]
      exact ih hnd'.2 (fun y hy => hle y (List.mem_cons_of_mem x hy))
        (fun y hy => hkey y (List.mem_cons_of_mem x hy))

/-- The owner the claim batch writes can only equal the requester when the
first branch (the claim of the requested token) fired. -/
theorem claimF_eq_some (b : Bool) (lid tid li ti req : String) (o : Option String)
    (h : ((if b && (li == lid && ti == tid) then some req
      else if o == some req then none else o) == some req) = true) :
    (b && (li == lid && ti == tid)) = true := by
  by_cases hcond : (b && (li == lid && ti == tid)) = true
  · exact hcond
  · rw [if_neg hcond] at h
    by_cases hown : (o == some req) = true
    · rw [if_pos hown] at h
      simp at h
    · rw [if_neg hown] at h
      exact absurd h hown

/-- C2: for a claim-token-request from requester req targeting (lid, tid),
the token-ownership-changed batch the host builds, applied by the reducer
to the document it was built from (ids unique per the document invariant),
rewrites ownership pointwise: the requested token (if it exists) becomes
owned by req, every token previously owned by req is set to unclaimed,
every other owner is untouched; consequently req owns at most one token
session-wide afterwards. -/
theorem claimTokenRequest_atMostOne (now : Nat) (s : BoardState) (req lid tid : String)
    (hUL : layersNodup s) (hUT : tokensNodup s) :
    handleEvent now s (Event.tokenOwnershipChanged (claimChanges s req lid tid))
      = mapOwners (fun li ti o =>
          if (s.findToken lid tid).isSome && (li == lid && ti == tid) then some req
          else if o == some req then none else o) s
    ∧ countOwned req
        (handleEvent now s (Event.tokenOwnershipChanged (claimChanges s req lid tid))) ≤ 1 := by
  have hchar : handleEvent now s (Event.tokenOwnershipChanged (claimChanges s req lid tid))
      = mapOwners (fun li ti o =>
          if (s.findToken lid tid).isSome && (li == lid && ti == tid) then some req
          else if o == some req then none else o) s := by
    rw [handleEvent_ownershipChanged, applyChanges_eq_mapOwners hUL hUT]
    exact mapOwners_congr (fun l hl t ht => finalOwner_claimChanges hUL hUT hl ht)
  refine ⟨hchar, ?_⟩
  rw [hchar, countOwned_mapOwners]
  apply sum_counts_le_one Layer.id lid hUL
  · intro l hl
    apply countP_le_one_of_key Token.id tid (hUT l hl)
    intro t ht hbeq
    have hand := claimF_eq_some _ _ _ _ _ _ _ hbeq
    rcases Bool.and_eq_true_iff.mp hand with ⟨_, hand2⟩
    rcases Bool.and_eq_true_iff.mp hand2 with ⟨_, hti⟩
    simpa using hti
  · intro l hl hpos
    rcases List.countP_pos_iff.mp hpos with ⟨t, ht, hbeq⟩
    have hand := claimF_eq_some _ _ _ _ _ _ _ hbeq
    rcases Bool.and_eq_true_iff.mp hand with ⟨_, hand2⟩
    rcases Bool.and_eq_true_iff.mp hand2 with ⟨hli, _⟩
    simpa using hli

/-- Witness for C2 on a concrete document: the requester ends up owning at
most one token. -/
theorem claimTokenRequest_atMostOne_witness :
    layersNodup boardC2 ∧ tokensNodup boardC2
      ∧ (handleEvent 0 boardC2
            (Event.tokenOwnershipChanged (claimChanges boardC2 "peer_1" "L1" "tB"))
          = mapOwners (fun li ti o =>
              if (boardC2.findToken "L1" "tB").isSome && (li == "L1" && ti == "tB")
              then some "peer_1"
              else if o == some "peer_1" then none else o) boardC2
        ∧ countOwned "peer_1" (handleEvent 0 boardC2
            (Event.tokenOwnershipChanged (claimChanges boardC2 "peer_1" "L1" "tB"))) ≤ 1) :=
  ⟨by unfold layersNodup; decide, by unfold tokensNodup; decide,
    claimTokenRequest_atMostOne 0 boardC2 "peer_1" "L1" "tB"
      (by unfold layersNodup; decide) (by unfold tokensNodup; decide)⟩

theorem foldl_unclaim_eq_applyChanges (cs : List TokenRef) (s : BoardState) :
    cs.foldl (fun st c => st.setOwner c.layerId c.tokenId none) s
      = applyChanges (cs.map (fun r =>
          ({ layerId := r.layerId, tokenId := r.tokenId, newOwner := none } : OwnershipChange))) s := by
  unfold applyChanges
  rw [List.foldl_map]

/-- The aligned-snapshot special case (the behaviour the spec intends): when
the snapshot the disconnect handler reads coincides with the document the
event is applied to, the batch carries the original token id and every
other owned token, and one reducer application removes the original token
from every layer and leaves no token owned by the departed participant (ids
unique per the document invariant).  The code does not guarantee the
alignment: see participantLeft_staleSnapshot_ghostOwner. -/
theorem participantLeft_cleanup_of_aligned_snapshot (now : Nat) (s : BoardState) (pid : String)
    (hUL : layersNodup s) (hUT : tokensNodup s) :
    (disconnectChanges s pid).removedTokenId = "token_" ++ pid
    ∧ (∀ l ∈ s.layers, ∀ t ∈ l.tokens, t.peerId = some pid → ¬ t.id = "token_" ++ pid →
        ({ layerId := l.id, tokenId := t.id } : TokenRef) ∈ (disconnectChanges s pid).unclaimedTokens)
    ∧ (∀ l' ∈ (handleEvent now s (Event.playerDisconnectedUpdate (disconnectChanges s pid))).layers,
        ∀ t' ∈ l'.tokens, ¬ t'.id = "token_" ++ pid ∧ ¬ t'.peerId = some pid) := by
  refine ⟨rfl, ?_, ?_⟩
  · intro l hl t ht hown hnid
    unfold disconnectChanges
    exact List.mem_flatMap.mpr ⟨l, hl,
      List.mem_map.mpr ⟨t, List.mem_filter.mpr ⟨ht, by simp [hown, hnid]⟩, rfl⟩⟩
  · -- the state after the removal phase
    have hs1UL : layersNodup (removePhase s (disconnectChanges s pid).removedTokenId) := by
      unfold layersNodup removePhase at *
      have hids : (s.layers.map (fun l =>
          ({ l with tokens := (l.tokens.filter
            (fun t => !(t.id == (disconnectChanges s pid).removedTokenId))) } : Layer))).map Layer.id
          = s.layers.map Layer.id := by
        rw [List.map_map]
        exact List.map_congr_left (fun l _ => rfl)
      show ((s.layers.map _).map Layer.id).Nodup
      rw [hids]
      exact hUL
    have hs1UT : tokensNodup (removePhase s (disconnectChanges s pid).removedTokenId) := by
      intro l1 hl1
      unfold removePhase at hl1
      rcases List.mem_map.mp hl1 with ⟨l0, hl0, rfl⟩
      have hsub : ((l0.tokens.filter
            (fun t => !(t.id == (disconnectChanges s pid).removedTokenId))).map Token.id).Sublist
          (l0.tokens.map Token.id) :=
        List.Sublist.map Token.id (List.filter_sublist l0.tokens)
      exact List.Nodup.sublist hsub (hUT l0 hl0)
    have hnone : ∀ c ∈ (disconnectChanges s pid).unclaimedTokens.map (fun r =>
        ({ layerId := r.layerId, tokenId := r.tokenId, newOwner := none } : OwnershipChange)),
        c.newOwner = none := by
      intro c hc
      rcases List.mem_map.mp hc with ⟨r, _, rfl⟩
      rfl
    have hred : handleEvent now s (Event.playerDisconnectedUpdate (disconnectChanges s pid))
        = mapOwners (finalOwner ((disconnectChanges s pid).unclaimedTokens.map (fun r =>
            ({ layerId := r.layerId, tokenId := r.tokenId, newOwner := none } : OwnershipChange))))
          (removePhase s (disconnectChanges s pid).removedTokenId) := by
      show (disconnectChanges s pid).unclaimedTokens.foldl
          (fun st c => st.setOwner c.layerId c.tokenId none)
          (removePhase s (disconnectChanges s pid).removedTokenId) = _
      rw [foldl_unclaim_eq_applyChanges, applyChanges_eq_mapOwners hs1UL hs1UT]
    intro l' hl' t' ht'
    rw [hred] at hl'
    unfold mapOwners removePhase at hl'
    rw [List.map_map] at hl'
    rcases List.mem_map.mp hl' with ⟨l0, hl0, rfl⟩
    simp only [Function.comp] at ht'
    rcases List.mem_map.mp ht' with ⟨t1, ht1f, rfl⟩
    rcases List.mem_filter.mp ht1f with ⟨ht1, hnotrid⟩
    have hid : ¬ t1.id = "token_" ++ pid := by simpa using hnotrid
    refine ⟨hid, ?_⟩
    show ¬ finalOwner _ l0.id t1.id t1.peerId = some pid
    rw [finalOwner_all_none hnone]
    have hmcs : (disconnectChanges s pid).unclaimedTokens.map (fun r =>
          ({ layerId := r.layerId, tokenId := r.tokenId, newOwner := none } : OwnershipChange))
        = s.layers.flatMap (fun l =>
          (l.tokens.filter
            (fun t => t.peerId == some pid && !(t.id == "token_" ++ pid))).map
            (fun t => ({ layerId := l.id, tokenId := t.id, newOwner := none } : OwnershipChange))) := by
      unfold disconnectChanges
      rw [List.map_flatMap]
      refine congrArg (List.flatMap s.layers) (funext (fun l => ?_))
      rw [List.map_map]
      rfl
    rw [hmcs]
    rw [any_unclaimList hUL hUT
      (fun t => t.peerId == some pid && !(t.id == "token_" ++ pid))
      (fun a b => ({ layerId := a, tokenId := b, newOwner := none } : OwnershipChange))
      (fun a b => rfl) (fun a b => rfl) hl0 ht1]
    by_cases hq : (t1.peerId == some pid && !(t1.id == "token_" ++ pid)) = true
    · rw [if_pos hq]
      simp
    · have hq' : (t1.peerId == some pid && !(t1.id == "token_" ++ pid)) = false := by
        simpa using hq
      rw [if_neg hq]
      have hnotrid' : (!(t1.id == "token_" ++ pid)) = true := hnotrid
      have hown : (t1.peerId == some pid) = false := by
        cases hpo : (t1.peerId == some pid) with
        | false => rfl
        | true => rw [hpo, hnotrid'] at hq'; cases hq'
      simpa using hown

/-- C3: evaluation of the code at the failing input.  The live document
boardC3live has token tZ on the later-added layer L2, owned by the
departing p1, but the handler computes the batch from the stale session.vtt
snapshot vttC3, which lacks L2, so the batch misses tZ.  Applying the
single player-disconnected-update to the live document removes token_p1
from every layer, yet leaves tZ still owned by the departed p1 — ghost
ownership is observable, contradicting the claim (and the spec's stated
purpose of the single atomic participant-left event). -/
theorem participantLeft_staleSnapshot_ghostOwner :
    boardC3live.findToken "L2" "tZ" = some tokenC3z
      ∧ tokenC3z.peerId = some "p1"
      ∧ ({ layerId := "L2", tokenId := "tZ" } : TokenRef)
          ∉ (disconnectChanges vttC3 "p1").unclaimedTokens
      ∧ (handleEvent 0 boardC3live
          (Event.playerDisconnectedUpdate (disconnectChanges vttC3 "p1"))).findToken
            "L1" "token_p1" = none
      ∧ (handleEvent 0 boardC3live
          (Event.playerDisconnectedUpdate (disconnectChanges vttC3 "p1"))).findToken
            "L2" "tZ" = some tokenC3z :=
  ⟨by decide, by decide, by decide, by decide, by decide⟩

/-- C4: when both participants own tokens, the gain (volumeRatio) is 1 at
distance 40 and 0 at distance 1200, and for every 40 < d < 1200 the output
written to the audio element is
floor + (userMax - floor) * ((1/d^2 - 1/1200^2) / (1/40^2 - 1/1200^2))
with floor = 0.05. -/
theorem proximityGain_formula (maxV d : ℚ) (h1 : 40 < d) (h2 : d < 1200) :
    volumeRatio 40 = 1 ∧ volumeRatio 1200 = 0
      ∧ audioVolume true true maxV d
        = 0.05 + (maxV - 0.05) * ((1 / (d * d) - 1 / (1200 * 1200))
            / (1 / (40 * 40) - 1 / (1200 * 1200))) := by
  refine ⟨?_, ?_, ?_⟩
  · rw [volumeRatio, if_pos (by norm_num [minDistance])]
  · rw [volumeRatio, if_neg (by norm_num [minDistance]), if_neg (by norm_num [maxDistance])]
  · show finalVolume maxV d = _
    rw [finalVolume, volumeRatio, if_neg (by rw [minDistance]; exact not_le.mpr h1),
      if_pos (by rw [maxDistance]; exact h2)]
    norm_num [minVolume, minDistance, maxDistance]

/-- Witness for C4 at userMax = 1 and d = 200. -/
theorem proximityGain_formula_witness :
    (40 : ℚ) < 200 ∧ (200 : ℚ) < 1200
      ∧ (volumeRatio 40 = 1 ∧ volumeRatio 1200 = 0
        ∧ audioVolume true true 1 200
          = 0.05 + (1 - 0.05) * ((1 / (200 * 200) - 1 / (1200 * 1200))
              / (1 / (40 * 40) - 1 / (1200 * 1200)))) :=
  ⟨by norm_num, by norm_num, proximityGain_formula 1 200 (by norm_num) (by norm_num)⟩

theorem volumeRatio_nonneg (d : ℚ) : 0 ≤ volumeRatio d := by
  unfold volumeRatio minDistance maxDistance
  split
  · norm_num
  · split
    · rename_i hgt hlt
      have hd : (40 : ℚ) < d := not_le.mp hgt
      have hd0 : (0 : ℚ) < d := by linarith
      have hdd : d * d < 1200 * 1200 := by nlinarith
      have hdd0 : (0 : ℚ) < d * d := mul_pos hd0 hd0
      have hnum : (0 : ℚ) ≤ 1 / (d * d) - 1 / (1200 * 1200) := by
        have := one_div_le_one_div_of_le hdd0 (le_of_lt hdd)
        linarith
      have hden : (0 : ℚ) < 1 / (40 * 40) - 1 / (1200 * 1200) := by norm_num
      exact div_nonneg hnum (le_of_lt hden)
    · norm_num

theorem volumeRatio_le_one (d : ℚ) : volumeRatio d ≤ 1 := by
  unfold volumeRatio minDistance maxDistance
  split
  · norm_num
  · split
    · rename_i hgt hlt
      have hd : (40 : ℚ) < d := not_le.mp hgt
      have hdd : (40 : ℚ) * 40 < d * d := by nlinarith
      have hdd0 : (0 : ℚ) < 40 * 40 := by norm_num
      have hnum : 1 / (d * d) ≤ 1 / (40 * 40) := one_div_le_one_div_of_le hdd0 (le_of_lt hdd)
      have hden : (0 : ℚ) < 1 / (40 * 40) - 1 / (1200 * 1200) := by norm_num
      rw [div_le_one hden]
      linarith
    · norm_num

theorem volumeRatio_antitone {d1 d2 : ℚ} (h : d1 ≤ d2) : volumeRatio d2 ≤ volumeRatio d1 := by
  by_cases h2min : d2 ≤ 40
  · have h1min : d1 ≤ 40 := le_trans h h2min
    have hv2 : volumeRatio d2 = 1 := by
      rw [volumeRatio, if_pos (by rw [minDistance]; exact h2min)]
    have hv1 : volumeRatio d1 = 1 := by
      rw [volumeRatio, if_pos (by rw [minDistance]; exact h1min)]
    rw [hv1, hv2]
  · by_cases h1min : d1 ≤ 40
    · have hv1 : volumeRatio d1 = 1 := by
        rw [volumeRatio, if_pos (by rw [minDistance]; exact h1min)]
      rw [hv1]
      exact volumeRatio_le_one d2
    · have hd1 : (40 : ℚ) < d1 := not_le.mp h1min
      by_cases h2max : d2 < 1200
      · have h1max : d1 < 1200 := lt_of_le_of_lt h h2max
        have hv2 : volumeRatio d2
            = (1 / (d2 * d2) - 1 / (1200 * 1200)) / (1 / (40 * 40) - 1 / (1200 * 1200)) := by
          rw [volumeRatio, if_neg (by rw [minDistance]; exact h2min),
            if_pos (by rw [maxDistance]; exact h2max), minDistance, maxDistance]
        have hv1 : volumeRatio d1
            = (1 / (d1 * d1) - 1 / (1200 * 1200)) / (1 / (40 * 40) - 1 / (1200 * 1200)) := by
          rw [volumeRatio, if_neg (by rw [minDistance]; exact h1min),
            if_pos (by rw [maxDistance]; exact h1max), minDistance, maxDistance]
        rw [hv1, hv2]
        have hd10 : (0 : ℚ) < d1 := by linarith
        have hsq : d1 * d1 ≤ d2 * d2 := by nlinarith
        have hsq0 : (0 : ℚ) < d1 * d1 := mul_pos hd10 hd10
        have hinv : 1 / (d2 * d2) ≤ 1 / (d1 * d1) := one_div_le_one_div_of_le hsq0 hsq
        have hden : (0 : ℚ) < 1 / (40 * 40) - 1 / (1200 * 1200) := by norm_num
        rw [div_le_div_iff_of_pos_right hden]
        linarith
      · have hv2 : volumeRatio d2 = 0 := by
          rw [volumeRatio, if_neg (by rw [minDistance]; exact h2min),
            if_neg (by rw [maxDistance]; exact h2max)]
        rw [hv2]
        exact volumeRatio_nonneg d1

/-- C5: when both participants own tokens (userMax at its default 1), the
written volume at distance 200 lies strictly between the floor 0.05 and 1,
and the volume is non-increasing in the distance. -/
theorem proximityGain_between_antitone (d1 d2 : ℚ) (h : d1 ≤ d2) :
    ((0.05 : ℚ) < audioVolume true true 1 200 ∧ audioVolume true true 1 200 < 1)
      ∧ audioVolume true true 1 d2 ≤ audioVolume true true 1 d1 := by
  constructor
  · constructor
    · show (0.05 : ℚ) < finalVolume 1 200
      rw [finalVolume, volumeRatio]
      rw [if_neg (by norm_num [minDistance]), if_pos (by norm_num [maxDistance])]
      norm_num [minVolume, minDistance, maxDistance]
    · show finalVolume 1 200 < 1
      rw [finalVolume, volumeRatio]
      rw [if_neg (by norm_num [minDistance]), if_pos (by norm_num [maxDistance])]
      norm_num [minVolume, minDistance, maxDistance]
  · show finalVolume 1 d2 ≤ finalVolume 1 d1
    unfold finalVolume
    have hr := volumeRatio_antitone h
    have hc : (0 : ℚ) ≤ 1 - minVolume := by norm_num [minVolume]
    nlinarith [hr, hc]

/-- Witness for C5 at d1 = 100 and d2 = 300. -/
theorem proximityGain_between_antitone_witness :
    (100 : ℚ) ≤ 300
      ∧ (((0.05 : ℚ) < audioVolume true true 1 200 ∧ audioVolume true true 1 200 < 1)
        ∧ audioVolume true true 1 300 ≤ audioVolume true true 1 100) :=
  ⟨by norm_num, proximityGain_between_antitone 100 300 (by norm_num)⟩

theorem dirGet_dirDelete_self (d : Directory) (k : String) : dirGet (dirDelete d k) k = none := by
  unfold dirGet dirDelete
  have h : (d.filter (fun p => !(p.1 == k))).find? (fun p => p.1 == k) = none :=
    List.find?_eq_none.mpr (fun p hp => by
      have h2 := (List.mem_filter.mp hp).2
      simpa using h2)
  rw [h]
  rfl

theorem find?_filter_ne {k k' : String} (h : k' ≠ k) (d : Directory) :
    (d.filter (fun p => !(p.1 == k))).find? (fun p => p.1 == k')
      = d.find? (fun p => p.1 == k') := by
  induction d with
  | nil => rfl
  | cons q d ih =>
    by_cases hq : (q.1 == k) = true
    · have hqk : q.1 = k := by simpa using hq
      have hq' : ¬ (q.1 == k') = true := by
        rw [hqk]
        simp
        exact fun he => h he.symm
      have hstep : (q :: d).filter (fun p => !(p.1 == k)) = d.filter (fun p => !(p.1 == k)) := by
        simp [List.filter_cons, hq]
      rw [hstep, List.find?_cons_of_neg (p := fun p : String × WebRTCManager => p.1 == k') _ hq', ih]
    · have hqf : (q.1 == k) = false := Bool.eq_false_iff.mpr hq
      have hstep : (q :: d).filter (fun p => !(p.1 == k))
          = q :: d.filter (fun p => !(p.1 == k)) := by
        simp [List.filter_cons, hqf]
      rw [hstep]
      by_cases hq' : (q.1 == k') = true
      · rw [List.find?_cons_of_pos (p := fun p : String × WebRTCManager => p.1 == k') _ hq',
          List.find?_cons_of_pos (p := fun p : String × WebRTCManager => p.1 == k') _ hq']
      · rw [List.find?_cons_of_neg (p := fun p : String × WebRTCManager => p.1 == k') _ hq',
          List.find?_cons_of_neg (p := fun p : String × WebRTCManager => p.1 == k') _ hq', ih]

theorem dirGet_dirDelete_ne (d : Directory) {k k' : String} (h : k' ≠ k) :
    dirGet (dirDelete d k) k' = dirGet d k' := by
  unfold dirGet dirDelete
  rw [find?_filter_ne h d]

theorem find?_map_set_self {k : String} {v : WebRTCManager} (d : Directory)
    (hany : d.any (fun p => p.1 == k) = true) :
    (d.map (fun p => if p.1 == k then (k, v) else p)).find? (fun p => p.1 == k)
      = some (k, v) := by
  induction d with
  | nil => cases hany
  | cons q d ih =>
    rw [List.map_cons]
    by_cases hq : (q.1 == k) = true
    · rw [if_pos hq, List.find?_cons_of_pos (p := fun p : String × WebRTCManager => p.1 == k) _ (by simp)]
    · have hany2 : d.any (fun p => p.1 == k) = true := by
        rcases List.any_eq_true.mp hany with ⟨r, hr, hrk⟩
        rcases List.mem_cons.mp hr with rfl | hr'
        · exact absurd hrk hq
        · exact List.any_eq_true.mpr ⟨r, hr', hrk⟩
      rw [if_neg hq, List.find?_cons_of_neg (p := fun p : String × WebRTCManager => p.1 == k) _ hq]
      exact ih hany2

theorem find?_map_set_ne {k k' : String} {v : WebRTCManager} (h : k' ≠ k) (d : Directory) :
    (d.map (fun p => if p.1 == k then (k, v) else p)).find? (fun p => p.1 == k')
      = d.find? (fun p => p.1 == k') := by
  induction d with
  | nil => rfl
  | cons q d ih =>
    rw [List.map_cons]
    by_cases hq : (q.1 == k) = true
    · have hqk : q.1 = k := by simpa using hq
      have hkk' : ¬ ((k, v).1 == k') = true := by
        simp
        exact fun he => h he.symm
      have hq' : ¬ (q.1 == k') = true := by
        rw [hqk]
        simpa using hkk'
      rw [if_pos hq, List.find?_cons_of_neg (p := fun p : String × WebRTCManager => p.1 == k') _ hkk',
        List.find?_cons_of_neg (p := fun p : String × WebRTCManager => p.1 == k') _ hq', ih]
    · rw [if_neg hq]
      by_cases hq' : (q.1 == k') = true
      · rw [List.find?_cons_of_pos (p := fun p : String × WebRTCManager => p.1 == k') _ hq',
          List.find?_cons_of_pos (p := fun p : String × WebRTCManager => p.1 == k') _ hq']
      · rw [List.find?_cons_of_neg (p := fun p : String × WebRTCManager => p.1 == k') _ hq',
          List.find?_cons_of_neg (p := fun p : String × WebRTCManager => p.1 == k') _ hq', ih]

theorem find?_append_absent {k : String} {v : WebRTCManager} (d : Directory)
    (hall : ∀ p ∈ d, (p.1 == k) = false) :
    (d ++ [(k, v)]).find? (fun p => p.1 == k) = some (k, v) := by
  induction d with
  | nil =>
    rw [List.nil_append, List.find?_cons_of_pos (p := fun p : String × WebRTCManager => p.1 == k) _ (by simp)]
  | cons q d ih =>
    rw [List.cons_append,
      List.find?_cons_of_neg (p := fun p : String × WebRTCManager => p.1 == k) _
        (by simp [hall q (List.mem_cons_self q d)])]
    exact ih (fun r hr => hall r (List.mem_cons_of_mem q hr))

theorem find?_append_ne {k k' : String} {v : WebRTCManager} (h : k' ≠ k) (d : Directory) :
    (d ++ [(k, v)]).find? (fun p => p.1 == k') = d.find? (fun p => p.1 == k') := by
  induction d with
  | nil =>
    rw [List.nil_append,
      List.find?_cons_of_neg (p := fun p : String × WebRTCManager => p.1 == k') _ (by simp; exact fun he => h he.symm)]
  | cons q d ih =>
    rw [List.cons_append]
    by_cases hq' : (q.1 == k') = true
    · rw [List.find?_cons_of_pos (p := fun p : String × WebRTCManager => p.1 == k') _ hq',
        List.find?_cons_of_pos (p := fun p : String × WebRTCManager => p.1 == k') _ hq']
    · rw [List.find?_cons_of_neg (p := fun p : String × WebRTCManager => p.1 == k') _ hq',
        List.find?_cons_of_neg (p := fun p : String × WebRTCManager => p.1 == k') _ hq', ih]

theorem dirGet_dirSet_self (d : Directory) (k : String) (v : WebRTCManager) :
    dirGet (dirSet d k v) k = some v := by
  unfold dirGet dirSet
  by_cases hany : (d.any (fun p => p.1 == k)) = true
  · rw [if_pos hany, find?_map_set_self d hany]
    rfl
  · rw [if_neg hany, find?_append_absent d (fun p hp => by
      have h2 := List.any_eq_false.mp (Bool.eq_false_iff.mpr hany) p hp
      exact Bool.eq_false_iff.mpr h2)]
    rfl

theorem dirGet_dirSet_ne (d : Directory) (v : WebRTCManager) {k k' : String} (h : k' ≠ k) :
    dirGet (dirSet d k v) k' = dirGet d k' := by
  unfold dirGet dirSet
  by_cases hany : (d.any (fun p => p.1 == k)) = true
  · rw [if_pos hany, find?_map_set_ne h d]
  · rw [if_neg hany, find?_append_ne h d]

/-- C6 counterexample: with peer_xyz already present in the directory,
processAnswer does NOT fail; it succeeds and overwrites the peer_xyz entry
with the re-keyed invite link. -/
theorem processAnswer_overwrites_existing :
    dirGet dirC6 "peer_xyz" = some linkPeer
      ∧ processAnswer dirC6 "invite_abc" "peer_xyz"
          = Except.ok [("peer_xyz", { linkInvite with id := "peer_xyz" })] :=
  ⟨rfl, rfl⟩

/-- C6 (amended): re-keying a pending link from the invite id to the
participant id makes lookup by the invite id fail, lookup by the
participant id return the original link (with its id field reassigned to
the participant id), leaves every other entry unchanged, and when the
participant id is already present the rekey still succeeds, overwriting
that entry. -/
theorem processAnswer_rekey (d : Directory) (inviteId fromId : String) (link : WebRTCManager)
    (hget : dirGet d inviteId = some link) (hne : inviteId ≠ fromId) :
    ∃ d2, processAnswer d inviteId fromId = Except.ok d2
      ∧ dirGet d2 inviteId = none
      ∧ dirGet d2 fromId = some { link with id := fromId }
      ∧ ∀ k, k ≠ inviteId → k ≠ fromId → dirGet d2 k = dirGet d k := by
  refine ⟨dirSet (dirDelete d inviteId) fromId { link with id := fromId }, ?_, ?_, ?_, ?_⟩
  · unfold processAnswer
    rw [hget]
  · rw [dirGet_dirSet_ne _ _ hne, dirGet_dirDelete_self]
  · exact dirGet_dirSet_self _ _ _
  · intro k hk1 hk2
    rw [dirGet_dirSet_ne _ _ hk2, dirGet_dirDelete_ne _ hk1]

/-- Witness for the amended C6 on a concrete directory. -/
theorem processAnswer_rekey_witness :
    dirGet dirC6w "invite_abc" = some linkInvite ∧ "invite_abc" ≠ "peer_xyz"
      ∧ ∃ d2, processAnswer dirC6w "invite_abc" "peer_xyz" = Except.ok d2
        ∧ dirGet d2 "invite_abc" = none
        ∧ dirGet d2 "peer_xyz" = some { linkInvite with id := "peer_xyz" }
        ∧ ∀ k, k ≠ "invite_abc" → k ≠ "peer_xyz" → dirGet d2 k = dirGet dirC6w k :=
  ⟨rfl, by decide,
    processAnswer_rekey dirC6w "invite_abc" "peer_xyz" linkInvite rfl (by decide)⟩

/-- C8: an answer whose invite id has no pending link fails with the
"no pending invite" error before any mutation: the directory the session
keeps (the thrown error is caught by processGmInput) is unchanged, so no
other link is affected and the session continues. -/
theorem processAnswer_unknown_invite (d : Directory) (inviteId fromId : String)
    (h : dirGet d inviteId = none) :
    processAnswer d inviteId fromId
        = Except.error ("No pending invite found for inviteId: " ++ inviteId)
      ∧ processAnswerRun d inviteId fromId = d := by
  have h1 : processAnswer d inviteId fromId
      = Except.error ("No pending invite found for inviteId: " ++ inviteId) := by
    unfold processAnswer
    rw [h]
  refine ⟨h1, ?_⟩
  unfold processAnswerRun
  rw [h1]

/-- Witness for C8 on a concrete directory. -/
theorem processAnswer_unknown_invite_witness :
    dirGet dirC6w "invite_zzz" = none
      ∧ processAnswer dirC6w "invite_zzz" "peer_q"
          = Except.error ("No pending invite found for inviteId: " ++ "invite_zzz")
      ∧ processAnswerRun dirC6w "invite_zzz" "peer_q" = dirC6w :=
  ⟨rfl,
    (processAnswer_unknown_invite dirC6w "invite_zzz" "peer_q" rfl).1,
    (processAnswer_unknown_invite dirC6w "invite_zzz" "peer_q" rfl).2⟩

/-- C7: send delivers the serialized payload iff a data channel exists and
is open; otherwise the message is dropped (no queueing, no retry), no error
propagates (send is a total function) and the manager state is unchanged. -/
theorem send_delivers_iff_open {α : Type} (stringify : α → String) (m : WebRTCManager)
    (data : α) :
    ((WebRTCManager.send stringify m data).1 = some (stringify data) ↔ isChannelOpen m = true)
      ∧ (isChannelOpen m = false → (WebRTCManager.send stringify m data).1 = none)
      ∧ (WebRTCManager.send stringify m data).2 = m := by
  unfold WebRTCManager.send isChannelOpen
  cases hdc : m.dataChannel with
  | none => simp
  | some ch =>
    by_cases hrs : (ch.readyState == RTCDataChannelState.opened) = true
    · simp [hrs]
    · simp [hrs]

/-- Witness for C7: a closed channel drops the message. -/
theorem send_delivers_iff_open_witness :
    isChannelOpen mgrClosed = false
      ∧ (WebRTCManager.send (fun _ : Nat => "payload") mgrClosed 5).1 = none :=
  ⟨rfl, (send_delivers_iff_open (fun _ : Nat => "payload") mgrClosed 5).2.1 rfl⟩

/-- C9: an offer-list entry naming an already-linked peer, or the guest
itself, is ignored: the session (and so the directory) is unchanged, no
Peer Link is created, and no answer message is sent. -/
theorem handleP2POfferEntry_ignores_known (mkLink : String → WebRTCManager)
    (mkAnswer : String → String) (s : GuestSession) (otherPeerId offer : String)
    (h : s.peers.any (fun p => p.1 == otherPeerId) = true ∨ otherPeerId = s.myId) :
    handleP2POfferEntry mkLink mkAnswer s otherPeerId offer = (s, []) := by
  unfold handleP2POfferEntry
  have hcond : (s.peers.any (fun p => p.1 == otherPeerId) || otherPeerId == s.myId) = true := by
    rcases h with h | h
    · rw [h]
      rfl
    · simp [h]
  rw [if_pos hcond]

/-- Witness for C9: an offer for the already-linked peer_b is a no-op. -/
theorem handleP2POfferEntry_ignores_known_witness :
    (sessC9.peers.any (fun p => p.1 == "peer_b") = true ∨ "peer_b" = sessC9.myId)
      ∧ handleP2POfferEntry (fun i => { id := i, dataChannel := none }) (fun _ => "sdp-answer")
          sessC9 "peer_b" "sdp-offer" = (sessC9, []) :=
  ⟨Or.inl rfl,
    handleP2POfferEntry_ignores_known (fun i => { id := i, dataChannel := none })
      (fun _ => "sdp-answer") sessC9 "peer_b" "sdp-offer" (Or.inl rfl)⟩

end LibreVTT

